import Mathlib

/-!
Verification of the validation-and-credential core of the Pino final-project
repository: the sanitizer and field validator of `src/validator/user.ment.js`
(`sanitization`, `validation`, `createPasswordSchema`) and the credential
transform of `src/utils/bcript.js` (`addPepper`, `encrypt`, `compare`,
`generateToken`).

The JavaScript code is shallowly embedded: request-body values are an
inductive `Value` (JSON-parsed bodies carry strings, numbers, booleans and
null), objects are association lists, thrown exceptions are `Except.error`,
and the third-party primitives the code delegates to (`validator.trim`,
`validator.escape`, `validator.isEmail`, the `password-validator` schema,
HMAC-SHA256, bcrypt, `crypto.randomBytes`) are modelled by executable Lean
functions that follow those libraries' documented behaviour.  Randomness
(bcrypt's salt, `randomBytes`) is passed in explicitly as a parameter.
-/

deriving instance DecidableEq for Except

namespace Pino

/-! ## Characters the embedding needs by code point -/

/-- The double-quote character. -/
def quoteC : Char := Char.ofNat 34

/-- The apostrophe character. -/
def aposC : Char := Char.ofNat 39

/-- The backslash character. -/
def backslashC : Char := Char.ofNat 92

/-- The backtick character. -/
def backtickC : Char := Char.ofNat 96

/-! ## JavaScript string primitives (validator.js models) -/

/-- Model of the JavaScript regular-expression class `\s`: the whitespace
set used by `validator.trim` (tab, line feed, vertical tab, form feed,
carriage return, space, NBSP, ogham space, the U+2000 block, line/paragraph
separators, narrow NBSP, math space, ideographic space, BOM). -/
def jsIsSpace (c : Char) : Bool :=
  let n := c.toNat
  n == 9 || n == 10 || n == 11 || n == 12 || n == 13 || n == 32 ||
  n == 160 || n == 5760 || (8192 ≤ n && n ≤ 8202) || n == 8232 ||
  n == 8233 || n == 8239 || n == 8287 || n == 12288 || n == 65279

/-- Model of `validator.ltrim` (default chars): drop the leading `\s` run. -/
def ltrimL (l : List Char) : List Char := l.dropWhile jsIsSpace

/-- Model of `validator.rtrim` (default chars): drop the trailing `\s` run. -/
def rtrimL (l : List Char) : List Char := (l.reverse.dropWhile jsIsSpace).reverse

/-- Model of `validator.trim`: `rtrim(ltrim(str))`. -/
def trimL (l : List Char) : List Char := rtrimL (ltrimL l)

/-- Model of `validator.trim` on `String`. -/
def trimStr (s : String) : String := String.mk (trimL s.data)

/-- The characters `validator.escape` replaces. -/
def isEscapable (c : Char) : Bool :=
  decide (c = '&' ∨ c = quoteC ∨ c = aposC ∨ c = '<' ∨ c = '>' ∨
    c = '/' ∨ c = backslashC ∨ c = backtickC)

/-- Model of one step of `validator.escape`: the chained global `replace`
calls substitute each markup-significant character with its HTML entity and
leave every other character alone (the chain is equivalent to this
character-wise map because no entity re-introduces a replaced character
other than the ampersands inside entities, which the earlier `&` pass no
longer touches). -/
def escapeChar (c : Char) : List Char :=
  if c = '&' then ['&', 'a', 'm', 'p', ';']
  else if c = quoteC then ['&', 'q', 'u', 'o', 't', ';']
  else if c = aposC then ['&', '#', 'x', '2', '7', ';']
  else if c = '<' then ['&', 'l', 't', ';']
  else if c = '>' then ['&', 'g', 't', ';']
  else if c = '/' then ['&', '#', 'x', '2', 'F', ';']
  else if c = backslashC then ['&', '#', 'x', '5', 'C', ';']
  else if c = backtickC then ['&', '#', '9', '6', ';']
  else [c]

/-- Model of `validator.escape` on a character list. -/
def escapeL (l : List Char) : List Char := (l.map escapeChar).flatten

/-- Model of `validator.escape` on `String`. -/
def escapeStr (s : String) : String := String.mk (escapeL s.data)

/-- Model of JavaScript `str.split(sep)` for a one-character separator. -/
def splitOnChar (sep : Char) : List Char → List (List Char)
  | [] => [[]]
  | c :: rest =>
      if c = sep then [] :: splitOnChar sep rest
      else
        match splitOnChar sep rest with
        | h :: t => (c :: h) :: t
        | [] => [[c]]

/-! ## Request-body values and objects -/

/-- Values a JSON-parsed request body can carry (shallow embedding of the
JavaScript values the validator meets). -/
inductive Value where
  | vStr : String → Value
  | vNum : Int → Value
  | vBool : Bool → Value
  | vNull : Value
deriving DecidableEq, Repr

/-- A JavaScript object, as an association list keyed by property name. -/
def Obj := List (String × Value)

instance : DecidableEq Obj := by
  unfold Obj
  infer_instance

instance : Repr Obj := by
  unfold Obj
  infer_instance

instance : Membership (String × Value) Obj := by
  unfold Obj
  infer_instance

instance : Append Obj := by
  unfold Obj
  infer_instance

/-- Property lookup: `o[k]`, `undefined` becoming `none`. -/
def getProp (o : Obj) (k : String) : Option Value :=
  match o.find? (fun kv => kv.1 = k) with
  | some kv => some kv.2
  | none => none

/-- JavaScript truthiness of a defined value. -/
def truthyV : Value → Bool
  | Value.vStr s => s != ""
  | Value.vNum n => n != 0
  | Value.vBool b => b
  | Value.vNull => false

/-- JavaScript truthiness of a possibly-undefined value. -/
def truthy : Option Value → Bool
  | none => false
  | some v => truthyV v

/-- Model of the JavaScript `String(x)` conversion on our value universe. -/
def jsToString : Value → String
  | Value.vStr s => s
  | Value.vNum n => toString n
  | Value.vBool b => if b then "true" else "false"
  | Value.vNull => "null"

/-! ## `sanitization` (src/validator, part_002 lines 33-50) -/

/-- Sanitization of one property, keyed: password-bearing fields are only
trimmed, every other string field is trimmed then escaped, non-strings pass
through unchanged. -/
def sanitizeValue (key : String) (v : Value) : Value :=
  match v with
  | Value.vStr s =>
      if key = "password" ∨ key = "confirmPassword" then Value.vStr (trimStr s)
      else Value.vStr (escapeStr (trimStr s))
  | _ => v

/-- Model of `sanitization`: every own key of the input object is copied,
its value sanitized according to the key. -/
def sanitization (data : Obj) : Obj :=
  data.map (fun kv => (kv.1, sanitizeValue kv.1 kv.2))

example : sanitization [("nama", Value.vStr "&")] = [("nama", Value.vStr "&amp;")] := by decide

example : sanitization [("nama", Value.vStr "&amp;")] =
    [("nama", Value.vStr "&amp;amp;")] := by decide

example : sanitization [("password", Value.vStr "  a<b  ")] =
    [("password", Value.vStr "a<b")] := by decide

/-! ## `createPasswordSchema` (part_002 lines 8-26, password-validator model) -/

/-- Symbol set of the `password-validator` library's `symbols()` rule. -/
def pvSymbols : List Char :=
  '~' :: '!' :: '@' :: '#' :: '$' :: '%' :: '^' :: '&' :: '*' :: '(' :: ')' ::
  '-' :: '_' :: '=' :: '+' :: '[' :: Char.ofNat 123 :: ']' :: Char.ofNat 125 ::
  backslashC :: '|' :: ';' :: ':' :: quoteC :: aposC :: ',' :: '<' :: '.' ::
  '>' :: '/' :: '?' :: backtickC :: []

/-- Blacklist installed by `createPasswordSchema` via `is().not().oneOf`. -/
def pvBlacklist : List String := ["Password123!", "Passw0rd!", "12345678!Aa"]

/-- Model of `createPasswordSchema().validate(p, { list: true })`: the list
of rule names the password fails, in schema order (min 8, max 100,
uppercase, lowercase, at least one digit, at least one symbol, no spaces,
not blacklisted). -/
def schemaViolations (p : String) : List String :=
  (if 8 ≤ p.length then [] else ["min"]) ++
  (if p.length ≤ 100 then [] else ["max"]) ++
  (if p.data.any Char.isUpper then [] else ["uppercase"]) ++
  (if p.data.any Char.isLower then [] else ["lowercase"]) ++
  (if p.data.any Char.isDigit then [] else ["digits"]) ++
  (if p.data.any (fun c => pvSymbols.contains c) then [] else ["symbols"]) ++
  (if p.data.any jsIsSpace then ["spaces"] else []) ++
  (if pvBlacklist.contains p then ["oneOf"] else [])

/-- The fixed password policy as the spec states it: a password is strong
iff its length lies in [8,100], it has an uppercase letter, a lowercase
letter, a digit and a symbol, contains no whitespace and is not
blacklisted. -/
def passwordStrong (p : String) : Bool :=
  8 ≤ p.length && p.length ≤ 100 && p.data.any Char.isUpper &&
  p.data.any Char.isLower && p.data.any Char.isDigit &&
  p.data.any (fun c => pvSymbols.contains c) &&
  !(p.data.any jsIsSpace) && !(pvBlacklist.contains p)

example : schemaViolations "short1!" = ["min", "uppercase"] := by decide

example : schemaViolations "LongEnough1!" = [] := by decide

/-! ## Model of `validator.isEmail` (default options) -/

/-- The special characters the local part of an email may contain besides
letters and digits (model of the library's local-part character class). -/
def emailUserSpecials : List Char :=
  '!' :: '#' :: '$' :: '%' :: '&' :: aposC :: '*' :: '+' :: '-' :: '/' ::
  '=' :: '?' :: '^' :: '_' :: backtickC :: Char.ofNat 123 :: '|' ::
  Char.ofNat 125 :: '~' :: []

/-- A character admissible in a dot-atom of the local part. -/
def isEmailUserChar (c : Char) : Bool :=
  c.isAlpha || c.isDigit || emailUserSpecials.contains c

/-- Model of the library's local-part check: one or more non-empty
dot-separated atoms of admissible characters. -/
def emailUserOk (u : List Char) : Bool :=
  (splitOnChar '.' u).all (fun part => !part.isEmpty && part.all isEmailUserChar)

/-- Model of one label of a fully-qualified domain name: non-empty, at most
63 characters, letters, digits and hyphens only, no hyphen at either end. -/
def fqdnPartOk (part : List Char) : Bool :=
  !part.isEmpty && part.length ≤ 63 &&
  part.all (fun c => c.isAlpha || c.isDigit || c = '-') &&
  part.head? != some '-' && (part.getLast? != some '-')

/-- Model of `validator.isFQDN` with default options: at least two
dot-separated labels, every label well-formed, and an alphabetic top-level
domain of length at least two. -/
def isFQDNOk (domain : List Char) : Bool :=
  let parts := splitOnChar '.' domain
  let tld := parts.getLastD []
  2 ≤ parts.length && 2 ≤ tld.length && tld.all Char.isAlpha &&
  parts.all fqdnPartOk

/-- Model of `validator.isEmail` with default options: split on the last
`@`, require a non-empty admissible local part of at most 64 characters and
a fully-qualified domain.  The model keeps the library's structure (split,
pop the domain, re-join the local part) at the granularity the validation
code observes. -/
def isEmail (s : String) : Bool :=
  let parts := splitOnChar '@' s.data
  let domain := parts.getLastD []
  let user := (List.intersperse ['@'] parts.dropLast).flatten
  emailUserOk user && user.length ≤ 64 && isFQDNOk domain

example : isEmail "a@b.com" = true := by decide

example : isEmail "not-an-email" = false := by decide

example : isEmail "user@allowed.com" = true := by decide

/-! ## `validation` (part_002 lines 59-155) -/

/-- Validation settings after merging the caller's options over the
defaults (`{ ...defaultOptions, ...options }`). -/
structure Settings where
  validatePassword : Bool := true
  validateEmail : Bool := true
  passwordMatchField : Option String := none
  customValidators : List (String × (Value → Obj → Value)) := []
  allowedDomains : List String := []

/-- The default settings: no option overridden. -/
def defaultSettings : Settings := {}

/-- The outcome `validation` returns.  Messages carry `Value`s because the
custom-validator loop pushes whatever a validator returned, not only
strings. -/
structure Outcome where
  messages : List Value
  data : Obj
  isValid : Bool
deriving DecidableEq, Repr

/-- Model of the inline `formatField`: first character upper-cased, rest
unchanged. -/
def formatField (f : String) : String :=
  match f.data with
  | [] => ""
  | c :: rest => String.mk (c.toUpper :: rest)

/-- The required-field list after the default-field inference (lines
72-78): an empty list becomes `["email", "password"]`, plus `"nama"` iff
the raw input has that key (`rawData.nama !== undefined`). -/
def effectiveRequired (rawData : Obj) (requiredFields : List String) : List String :=
  if requiredFields = [] then
    if (getProp rawData "nama").isSome then ["email", "password", "nama"]
    else ["email", "password"]
  else requiredFields

/-- One required-field check (line 85): missing when falsy or when its
JavaScript string conversion is empty. -/
def requiredMissing (d : Obj) (field : String) : Bool :=
  match getProp d field with
  | none => true
  | some v => !truthyV v || jsToString v == ""

/-- The messages the required-field loop pushes, in field order. -/
def requiredMessages (d : Obj) (fields : List String) : List Value :=
  (fields.map (fun field =>
    if requiredMissing d field then
      [Value.vStr (formatField field ++ " is required")]
    else [])).flatten

/-- The domain-restriction message (lines 104-108). -/
def domainMsg (allowedDomains : List String) : String :=
  "Email must use one of the following domains: " ++
    String.intercalate ", " allowedDomains

/-- The email block (lines 91-111).  `validator.isEmpty` throws on a
non-string value, hence the `Except`; on a truthy string email it appends
the format message when `isEmail` fails and the domain message when the
substring after `@` (possibly `undefined`) is not an allowed domain. -/
def emailMessages (s : Settings) (d : Obj) : Except String (List Value) :=
  if s.validateEmail && truthy (getProp d "email") then
    match getProp d "email" with
    | some (Value.vStr e) =>
        if e != "" then
          Except.ok
            ((if isEmail e then [] else [Value.vStr "Invalid email format"]) ++
              (if s.allowedDomains = [] then []
               else if (match (splitOnChar '@' e.data).get? 1 with
                   | some dd => s.allowedDomains.contains (String.mk dd)
                   | none => false) then []
               else [Value.vStr (domainMsg s.allowedDomains)]))
        else Except.ok []
    | some _ => Except.error "Expected a string but received a non-string"
    | none => Except.ok []
  else Except.ok []

/-- The composite password-policy message (lines 123-125). -/
def pwPolicyMsg : String :=
  "Password must be at least 8 characters, include uppercase, lowercase, number, and symbol"

/-- The password block (lines 114-136): on a truthy string password it
appends the composite policy message when the schema reports any violation,
then the confirmation-mismatch message when `passwordMatchField` names a
truthy field whose value differs strictly from the password.  The
confirmation part (lines 129-135) is factored out below. -/
def confirmMessages (s : Settings) (d : Obj) (p : String) : List Value :=
  match s.passwordMatchField with
  | some mf =>
      if mf != "" then
        match getProp d mf with
        | some mv =>
            if truthyV mv && Value.vStr p != mv then
              [Value.vStr "Password confirmation does not match"]
            else []
        | none => []
      else []
  | none => []

/-- The password block (lines 114-136), assembled from the policy check
and the confirmation check above. -/
def passwordMessages (s : Settings) (d : Obj) : Except String (List Value) :=
  if s.validatePassword && truthy (getProp d "password") then
    match getProp d "password" with
    | some (Value.vStr p) =>
        if p != "" then
          Except.ok
            ((if schemaViolations p = [] then [] else [Value.vStr pwPolicyMsg]) ++
              confirmMessages s d p)
        else Except.ok []
    | some _ => Except.error "Expected a string but received a non-string"
    | none => Except.ok []
  else Except.ok []

/-- The custom-validator loop (lines 139-148): for every registered field
present in the sanitized data, whatever the validator returns other than
the literal `true` is pushed verbatim. -/
def customMessages (s : Settings) (d : Obj) : List Value :=
  (s.customValidators.map (fun fv =>
    match getProp d fv.1 with
    | some v =>
        if fv.2 v d = Value.vBool true then [] else [fv.2 v d]
    | none => [])).flatten

/-- The returned record (lines 150-154): `isValid` is computed from the
message list. -/
def mkOutcome (messages : List Value) (d : Obj) : Outcome :=
  { messages := messages, data := d, isValid := messages.isEmpty }

/-- Model of `validation`: sanitize, infer required fields, run the four
message-producing passes in source order, and assemble the outcome with
`isValid` computed from the message list.  A thrown `validator.isEmpty`
type error propagates as `Except.error` in source order (email block before
password block). -/
def validation (rawData : Obj) (requiredFields : List String)
    (settings : Settings) : Except String Outcome :=
  match emailMessages settings (sanitization rawData),
        passwordMessages settings (sanitization rawData) with
  | Except.ok m2, Except.ok m3 =>
      Except.ok (mkOutcome
        (requiredMessages (sanitization rawData)
            (effectiveRequired rawData requiredFields) ++
          m2 ++ m3 ++ customMessages settings (sanitization rawData))
        (sanitization rawData))
  | Except.error e, _ => Except.error e
  | _, Except.error e => Except.error e

example : validation [] [] defaultSettings =
    Except.ok { messages := [Value.vStr "Email is required", Value.vStr "Password is required"],
                data := [], isValid := false } := by decide

/-! ## Credential transform (src/utils/bcript.js)

HMAC-SHA256 and the bcrypt core are third-party cryptographic primitives;
the embedding idealizes each as an injective function whose output is
modelled by its inputs themselves (a Dolev-Yao-style symbolic model:
collisions of the real digests are assumed away).  Randomness is explicit:
bcrypt's fresh salt is a parameter, so "two calls" are two salts. -/

/-- Idealized HMAC digest: the pair of key and message stands for the
hex digest `createHmac(\"sha256\", key).update(msg).digest(\"hex\")`. -/
structure Digest where
  key : String
  msg : String
deriving DecidableEq, Repr

/-- Idealized `crypto.createHmac("sha256", key).update(msg).digest("hex")`. -/
def hmacSha256 (key msg : String) : Digest := Digest.mk key msg

/-- `SALT_ROUNDS` of src/utils/bcript.js. -/
def SALT_ROUNDS : Nat := 10

/-- Model of `addPepper` (lines 32-41): throws on a falsy (empty) password,
otherwise HMACs it with the pepper. -/
def addPepper (pepper : String) (password : String) : Except String Digest :=
  if password = "" then Except.error "Password cannot be empty."
  else Except.ok (hmacSha256 pepper password)

/-- Idealized bcrypt stored hash: the encoded string
`$2b$cost$saltdigest` is modelled by its three components; the digest
component is the (salt, input) pair, standing for the bcrypt core applied
to them.  Distinct component triples encode to distinct strings. -/
structure BcryptHash where
  cost : Nat
  salt : Nat
  digest : Nat × Digest
deriving DecidableEq, Repr

/-- Idealized `bcrypt.hash(input, cost)` once the fresh random salt is
fixed. -/
def bcryptHashWith (salt cost : Nat) (input : Digest) : BcryptHash :=
  BcryptHash.mk cost salt (salt, input)

/-- Idealized bcrypt verification: recompute the digest from the stored
salt and the candidate input and compare. -/
def bcryptCheck (input : Digest) (h : BcryptHash) : Bool :=
  h.digest == (h.salt, input)

/-- A stored hash string as `compare` receives it: either it parses as a
bcrypt hash or it is malformed. -/
inductive Stored where
  | wellFormed : BcryptHash → Stored
  | malformed : String → Stored
deriving DecidableEq, Repr

/-- Model of `encrypt` (lines 53-56): pepper the password, then bcrypt it
with the call's fresh salt and `SALT_ROUNDS`.  `encryptSync` is the same
function. -/
def encrypt (pepper : String) (salt : Nat) (password : String) :
    Except String BcryptHash :=
  (addPepper pepper password).map (bcryptHashWith salt SALT_ROUNDS)

/-- Model of `compare` (lines 80-83) and `compareSync`: pepper the
candidate password (which throws on an empty password), then run bcrypt's
comparison; per the spec a malformed stored hash fails with an invalid-
input error. -/
def compare (pepper : String) (password : String) (stored : Stored) :
    Except String Bool :=
  match addPepper pepper password with
  | Except.error e => Except.error e
  | Except.ok d =>
      match stored with
      | Stored.wellFormed h => Except.ok (bcryptCheck d h)
      | Stored.malformed _ => Except.error "Invalid stored hash."

/-! ## `generateToken` (lines 107-115) -/

/-- A JavaScript number argument after `Number(length)`, restricted to the
integers the embedding covers, plus `NaN`. -/
inductive JsNum where
  | num : Int → JsNum
  | nan : JsNum
deriving DecidableEq, Repr

/-- The lower-case hexadecimal digit for a value below 16: 0-9 at code
point 48 up, a-f at code point 97 up. -/
def hexDigitChar (n : Nat) : Char :=
  if n < 10 then Char.ofNat (48 + n) else Char.ofNat (87 + n)

/-- Hex encoding of one byte: two characters. -/
def hexByte (b : Fin 256) : List Char :=
  [hexDigitChar (b.val / 16), hexDigitChar (b.val % 16)]

/-- Model of `Buffer.toString("hex")`. -/
def hexEncode (bs : List (Fin 256)) : String :=
  String.mk ((bs.map hexByte).flatten)

/-- Model of `generateToken`: `Number` the argument, throw unless it is a
positive number, then hex-encode that many bytes drawn from the entropy
source (the model of `crypto.randomBytes`). -/
def generateToken (entropy : Nat → Fin 256) (length : JsNum) :
    Except String String :=
  match length with
  | JsNum.nan => Except.error "Token length must be a positive number."
  | JsNum.num size =>
      if size ≤ 0 then Except.error "Token length must be a positive number."
      else Except.ok (hexEncode ((List.range size.toNat).map entropy))

example : generateToken (fun _ => (0 : Fin 256)) (JsNum.num 2) =
    Except.ok "0000" := by decide

example : generateToken (fun _ => (0 : Fin 256)) (JsNum.num 0) =
    Except.error "Token length must be a positive number." := by decide

/-! ## Helper lemmas -/

theorem str_data_append (a b : String) : (a ++ b).data = a.data ++ b.data := by
  cases a
  cases b
  rfl

theorem hexEncode_length (bs : List (Fin 256)) :
    (hexEncode bs).length = 2 * bs.length := by
  induction bs with
  | nil => rfl
  | cons b t ih =>
      show (hexByte b ++ (hexEncode t).data).length = 2 * (t.length + 1)
      rw [List.length_append]
      have : (hexEncode t).data.length = 2 * t.length := ih
      rw [this]
      show 2 + 2 * t.length = 2 * (t.length + 1)
      omega

theorem escapeL_cons (c : Char) (l : List Char) :
    escapeL (c :: l) = escapeChar c ++ escapeL l := rfl

theorem escapeChar_amp_mem (c : Char) (hc : isEscapable c = true) :
    '&' ∈ escapeChar c := by
  rw [isEscapable, decide_eq_true_eq] at hc
  rcases hc with rfl | rfl | rfl | rfl | rfl | rfl | rfl | rfl <;> decide

theorem escapeChar_eq_self (c : Char) (hc : isEscapable c = false) :
    escapeChar c = [c] := by
  rw [isEscapable, decide_eq_false_iff_not] at hc
  push_neg at hc
  obtain ⟨h1, h2, h3, h4, h5, h6, h7, h8⟩ := hc
  unfold escapeChar
  rw [if_neg h1, if_neg h2, if_neg h3, if_neg h4, if_neg h5, if_neg h6,
    if_neg h7, if_neg h8]

theorem amp_mem_escapeL (l : List Char) (c : Char) (hc : c ∈ l)
    (he : isEscapable c = true) : '&' ∈ escapeL l := by
  induction l with
  | nil => cases hc
  | cons a t ih =>
      rw [escapeL_cons, List.mem_append]
      rcases List.mem_cons.mp hc with rfl | hmem
      · exact Or.inl (escapeChar_amp_mem c he)
      · exact Or.inr (ih hmem)

theorem escapeL_eq_self (l : List Char) (h : ∀ c ∈ l, isEscapable c = false) :
    escapeL l = l := by
  induction l with
  | nil => rfl
  | cons a t ih =>
      rw [escapeL_cons, escapeChar_eq_self a (h a (List.mem_cons_self a t)),
        ih (fun c hc => h c (List.mem_cons_of_mem a hc))]
      rfl

theorem dropWhile_head?_not (p : Char → Bool) (l : List Char) (c : Char)
    (h : (l.dropWhile p).head? = some c) : p c = false := by
  induction l with
  | nil => cases h
  | cons a t ih =>
      rw [List.dropWhile_cons] at h
      by_cases hpa : p a = true
      · rw [if_pos hpa] at h
        exact ih h
      · rw [if_neg hpa] at h
        cases h
        exact Bool.not_eq_true _ |>.mp hpa

theorem dropWhile_dropWhile (p : Char → Bool) (l : List Char) :
    (l.dropWhile p).dropWhile p = l.dropWhile p := by
  cases h : l.dropWhile p with
  | nil => rfl
  | cons a t =>
      have ha : p a = false := dropWhile_head?_not p l a (by rw [h]; rfl)
      rw [List.dropWhile_cons, if_neg (by simp [ha])]

theorem rtrim_decomp (m : List Char) :
    m = rtrimL m ++ (m.reverse.takeWhile jsIsSpace).reverse := by
  conv_lhs =>
    rw [← List.reverse_reverse m,
      ← List.takeWhile_append_dropWhile jsIsSpace m.reverse]
  rw [List.reverse_append]
  rfl

theorem rtrimL_rtrimL (m : List Char) : rtrimL (rtrimL m) = rtrimL m := by
  show ((rtrimL m).reverse.dropWhile jsIsSpace).reverse = rtrimL m
  rw [show (rtrimL m).reverse = m.reverse.dropWhile jsIsSpace from
    List.reverse_reverse _]
  rw [dropWhile_dropWhile]
  rfl

theorem rtrimL_head? (m : List Char) (a : Char) (t : List Char)
    (h : rtrimL m = a :: t) : m.head? = some a := by
  have hdec := rtrim_decomp m
  rw [h] at hdec
  rw [hdec]
  rfl

theorem ltrimL_trimL (l : List Char) : ltrimL (trimL l) = trimL l := by
  cases h : trimL l with
  | nil => rfl
  | cons a t =>
      have h1 : (ltrimL l).head? = some a := rtrimL_head? (ltrimL l) a t h
      have ha : jsIsSpace a = false := dropWhile_head?_not jsIsSpace l a h1
      show (a :: t).dropWhile jsIsSpace = a :: t
      rw [List.dropWhile_cons, if_neg (by simp [ha])]

theorem trimL_trimL (l : List Char) : trimL (trimL l) = trimL l := by
  show rtrimL (ltrimL (trimL l)) = trimL l
  rw [ltrimL_trimL]
  show rtrimL (rtrimL (ltrimL l)) = rtrimL (ltrimL l)
  rw [rtrimL_rtrimL]

theorem split_no_sep (sep : Char) (l : List Char) (h : sep ∉ l) :
    splitOnChar sep l = [l] := by
  induction l with
  | nil => rfl
  | cons c t ih =>
      have hc : c ≠ sep := fun hcs => h (hcs ▸ List.mem_cons_self c t)
      have ht : sep ∉ t := fun hts => h (List.mem_cons_of_mem c hts)
      rw [splitOnChar, if_neg hc, ih ht]

theorem isEmail_no_at (e : String) (h : '@' ∉ e.data) : isEmail e = false := by
  unfold isEmail
  rw [split_no_sep '@' e.data h]
  rfl

theorem ite_nil_iff (c : Prop) [Decidable c] (v : String) :
    (if c then ([] : List String) else [v]) = [] ↔ c := by
  split <;> simp_all

theorem ite_nil_iff_not (c : Prop) [Decidable c] (v : String) :
    (if c then [v] else ([] : List String)) = [] ↔ ¬c := by
  split <;> simp_all

theorem schemaViolations_nil_iff (p : String) :
    schemaViolations p = [] ↔ passwordStrong p = true := by
  unfold schemaViolations passwordStrong
  rw [List.append_eq_nil, List.append_eq_nil, List.append_eq_nil,
    List.append_eq_nil, List.append_eq_nil, List.append_eq_nil,
    List.append_eq_nil]
  rw [ite_nil_iff, ite_nil_iff, ite_nil_iff, ite_nil_iff, ite_nil_iff,
    ite_nil_iff, ite_nil_iff_not, ite_nil_iff_not]
  simp only [Bool.and_eq_true, decide_eq_true_eq, Bool.not_eq_true',
    Bool.not_eq_true, and_assoc]

theorem requiredMsg_ne_pwPolicy (f : String) :
    Value.vStr (formatField f ++ " is required") ≠ Value.vStr pwPolicyMsg := by
  intro h
  have hs : formatField f ++ " is required" = pwPolicyMsg := by
    injection h
  have h1 : (formatField f ++ " is required").data.getLast? = some 'd' := by
    rw [str_data_append, List.getLast?_append_of_ne_nil _ (by decide)]
    decide
  rw [hs] at h1
  exact absurd h1 (by decide)

theorem pwPolicy_notMem_required (d : Obj) (fields : List String) :
    Value.vStr pwPolicyMsg ∉ requiredMessages d fields := by
  intro hmem
  unfold requiredMessages at hmem
  rw [List.mem_flatten] at hmem
  obtain ⟨l, hl, hx⟩ := hmem
  rw [List.mem_map] at hl
  obtain ⟨field, hfield, rfl⟩ := hl
  by_cases hm : requiredMissing d field = true
  · rw [if_pos hm, List.mem_singleton] at hx
    exact requiredMsg_ne_pwPolicy field hx.symm
  · rw [if_neg hm] at hx
    exact absurd hx (List.not_mem_nil _)

theorem pwPolicy_ne_domainMsg (ds : List String) :
    Value.vStr pwPolicyMsg ≠ Value.vStr (domainMsg ds) := by
  intro h
  have hs : pwPolicyMsg = domainMsg ds := by injection h
  have h1 : pwPolicyMsg.data.head? = some 'P' := by decide
  have h2 : (domainMsg ds).data.head? = some 'E' := by
    unfold domainMsg
    rw [str_data_append, List.head?_append]
    rw [show ("Email must use one of the following domains: " : String).data.head? =
      some 'E' from by decide]
    rfl
  rw [hs, h2] at h1
  exact absurd h1 (by decide)

theorem emailMessages_elems (s : Settings) (d : Obj) (m : List Value)
    (h : emailMessages s d = Except.ok m) :
    ∀ x ∈ m, x = Value.vStr "Invalid email format" ∨
      x = Value.vStr (domainMsg s.allowedDomains) := by
  unfold emailMessages at h
  split at h
  · split at h
    · split at h
      · cases h
        intro x hx
        rw [List.mem_append] at hx
        rcases hx with hx | hx <;> split at hx <;>
          simp_all
      · cases h
        intro x hx
        cases hx
    · cases h
    · cases h
      intro x hx
      cases hx
  · cases h
    intro x hx
    cases hx

theorem pwPolicy_notMem_confirm (s : Settings) (d : Obj) (p : String) :
    Value.vStr pwPolicyMsg ∉ confirmMessages s d p := by
  intro hmem
  unfold confirmMessages at hmem
  split at hmem
  · split at hmem
    · split at hmem
      · split at hmem
        · rw [List.mem_singleton] at hmem
          exact absurd hmem (by decide)
        · exact absurd hmem (List.not_mem_nil _)
      · exact absurd hmem (List.not_mem_nil _)
    · exact absurd hmem (List.not_mem_nil _)
  · exact absurd hmem (List.not_mem_nil _)

theorem passwordMessages_count (s : Settings) (d : Obj) (p : String)
    (m : List Value) (hvp : s.validatePassword = true)
    (hp : getProp d "password" = some (Value.vStr p)) (hne : p ≠ "")
    (h : passwordMessages s d = Except.ok m) :
    m.count (Value.vStr pwPolicyMsg) =
      if schemaViolations p = [] then 0 else 1 := by
  have htr : truthy (getProp d "password") = true := by
    rw [hp]
    simp [truthy, truthyV, bne_iff_ne, hne]
  have hbne : (p != "") = true := by simp [bne_iff_ne, hne]
  unfold passwordMessages at h
  rw [hvp, htr, hp] at h
  simp only [Bool.and_self, if_true, hbne] at h
  cases h
  rw [List.count_append,
    List.count_eq_zero.mpr (pwPolicy_notMem_confirm s d p)]
  by_cases hsch : schemaViolations p = []
  · rw [if_pos hsch, if_pos hsch]
    rfl
  · rw [if_neg hsch, if_neg hsch]
    decide

theorem mem_customMessages (s : Settings) (d : Obj) (f : String)
    (fn : Value → Obj → Value) (v : Value)
    (hmem : (f, fn) ∈ s.customValidators) (hv : getProp d f = some v)
    (hr : fn v d ≠ Value.vBool true) :
    fn v d ∈ customMessages s d := by
  unfold customMessages
  rw [List.mem_flatten]
  refine ⟨[fn v d], ?_, List.mem_singleton.mpr rfl⟩
  have hmap := List.mem_map_of_mem
    (f := fun fv : String × (Value → Obj → Value) =>
      match getProp d fv.1 with
      | some v => if fv.2 v d = Value.vBool true then [] else [fv.2 v d]
      | none => []) hmem
  simpa [hv, hr] using hmap

theorem validation_ok_eq (raw : Obj) (req : List String) (s : Settings)
    (out : Outcome) (m2 m3 : List Value)
    (he : emailMessages s (sanitization raw) = Except.ok m2)
    (hpw : passwordMessages s (sanitization raw) = Except.ok m3)
    (h : validation raw req s = Except.ok out) :
    out = mkOutcome
      (requiredMessages (sanitization raw) (effectiveRequired raw req) ++
        m2 ++ m3 ++ customMessages s (sanitization raw))
      (sanitization raw) := by
  unfold validation at h
  rw [he, hpw] at h
  cases h
  rfl

theorem validation_ok_inv (raw : Obj) (req : List String) (s : Settings)
    (out : Outcome) (h : validation raw req s = Except.ok out) :
    ∃ m2 m3, emailMessages s (sanitization raw) = Except.ok m2 ∧
      passwordMessages s (sanitization raw) = Except.ok m3 := by
  unfold validation at h
  cases he : emailMessages s (sanitization raw) <;>
    cases hp : passwordMessages s (sanitization raw) <;>
      rw [he, hp] at h <;> cases h
  exact ⟨_, _, rfl, rfl⟩

/-! ## Claim theorems -/

/-- Claim C7: for every positive integer n, `generateToken(n)` returns a
hex string of length 2n, and for every argument that is not a positive
integer (0, -1, any non-positive integer, NaN) it fails with the
invalid-input error. -/
theorem C7_generateToken (entropy : Nat → Fin 256) (n : Int) (hn : 0 < n) :
    (∃ s, generateToken entropy (JsNum.num n) = Except.ok s ∧
      s.length = 2 * n.toNat) ∧
    (∀ m : Int, m ≤ 0 →
      generateToken entropy (JsNum.num m) =
        Except.error "Token length must be a positive number.") ∧
    generateToken entropy JsNum.nan =
      Except.error "Token length must be a positive number." := by
  refine ⟨⟨hexEncode ((List.range n.toNat).map entropy), ?_, ?_⟩, ?_, rfl⟩
  · rw [generateToken, if_neg (by omega)]
  · rw [hexEncode_length, List.length_map, List.length_range]
  · intro m hm
    rw [generateToken, if_pos hm]

/-- Witness for C7 at byteLength 32: a 64-character token. -/
theorem C7_generateToken_witness :
    ∃ s, generateToken (fun _ => (0 : Fin 256)) (JsNum.num 32) = Except.ok s ∧
      s.length = 64 := by
  obtain ⟨s, hs, hl⟩ := (C7_generateToken (fun _ => (0 : Fin 256)) 32 (by decide)).1
  exact ⟨s, hs, by simpa using hl⟩

/-- Claim C8: for every raw input, required-field list and settings, a
returned validation outcome satisfies `isValid = messages.isEmpty`;
`isValid` is computed from the message list, never set independently. -/
theorem C8_isValid (raw : Obj) (req : List String) (s : Settings)
    (out : Outcome) (h : validation raw req s = Except.ok out) :
    out.isValid = out.messages.isEmpty := by
  unfold validation at h
  cases he : emailMessages s (sanitization raw) <;>
    cases hp : passwordMessages s (sanitization raw) <;>
      rw [he, hp] at h <;> cases h
  rfl

/-- Witness for C8 on a concrete failing validation. -/
theorem C8_isValid_witness :
    ∃ out, validation [] [] defaultSettings = Except.ok out ∧
      out.isValid = out.messages.isEmpty := by
  refine ⟨{ messages := [Value.vStr "Email is required", Value.vStr "Password is required"],
            data := [], isValid := false }, by decide, ?_⟩
  exact C8_isValid [] [] defaultSettings _ (by decide)

/-- Claim C1 as stated is false at one input: for the non-empty password
"abc" hashed at some fresh salt, verifying the other password "" does not
return false — `compare` throws the empty-password error instead. -/
theorem C1_counterexample :
    ∃ h : BcryptHash, encrypt "server-pepper" 0 "abc" = Except.ok h ∧
      ("" : String) ≠ "abc" ∧
      compare "server-pepper" "" (Stored.wellFormed h) =
        Except.error "Password cannot be empty." :=
  ⟨bcryptHashWith 0 SALT_ROUNDS (hmacSha256 "server-pepper" "abc"),
    by decide, by decide, by decide⟩

/-- Claim C1 (amended): for every non-empty password p, hashing it twice
with distinct fresh salts yields two different stored hashes, `compare` of
p against either returns true, and `compare` of any other NON-EMPTY
password against them returns false (an empty other password throws
instead of returning false). -/
theorem C1_hash_verify (pepper p q : String) (s1 s2 : Nat)
    (hp : p ≠ "") (hq : q ≠ "") (hpq : q ≠ p) (hs : s1 ≠ s2) :
    ∃ h1 h2 : BcryptHash,
      encrypt pepper s1 p = Except.ok h1 ∧
      encrypt pepper s2 p = Except.ok h2 ∧
      h1 ≠ h2 ∧
      compare pepper p (Stored.wellFormed h1) = Except.ok true ∧
      compare pepper p (Stored.wellFormed h2) = Except.ok true ∧
      compare pepper q (Stored.wellFormed h1) = Except.ok false ∧
      compare pepper q (Stored.wellFormed h2) = Except.ok false := by
  refine ⟨bcryptHashWith s1 SALT_ROUNDS (hmacSha256 pepper p),
    bcryptHashWith s2 SALT_ROUNDS (hmacSha256 pepper p),
    ?_, ?_, ?_, ?_, ?_, ?_, ?_⟩
  · simp [encrypt, addPepper, hp, Except.map]
  · simp [encrypt, addPepper, hp, Except.map]
  · intro hcon
    exact hs (congrArg BcryptHash.salt hcon)
  · simp [compare, addPepper, hp, bcryptCheck, bcryptHashWith]
  · simp [compare, addPepper, hp, bcryptCheck, bcryptHashWith]
  · simp [compare, addPepper, hq, bcryptCheck, bcryptHashWith, hmacSha256]
    intro hcon
    exact absurd hcon.symm hpq
  · simp [compare, addPepper, hq, bcryptCheck, bcryptHashWith, hmacSha256]
    intro hcon
    exact absurd hcon.symm hpq

/-- Witness for C1 at concrete passwords and salts. -/
theorem C1_hash_verify_witness :
    ∃ h1 h2 : BcryptHash,
      encrypt "pep" 0 "Str0ng!pass" = Except.ok h1 ∧
      encrypt "pep" 1 "Str0ng!pass" = Except.ok h2 ∧
      h1 ≠ h2 ∧
      compare "pep" "Str0ng!pass" (Stored.wellFormed h1) = Except.ok true ∧
      compare "pep" "Str0ng!pass" (Stored.wellFormed h2) = Except.ok true ∧
      compare "pep" "Wr0ng!pass" (Stored.wellFormed h1) = Except.ok false ∧
      compare "pep" "Wr0ng!pass" (Stored.wellFormed h2) = Except.ok false :=
  C1_hash_verify "pep" "Str0ng!pass" "Wr0ng!pass" 0 1
    (by decide) (by decide) (by decide) (by decide)

/-- Claim C3 as stated is false at one input: the password "" makes
`compare` throw even against a well-formed stored hash, so `compare` does
not hold its never-throws contract for every password string. -/
theorem C3_counterexample :
    compare "server-pepper" ""
        (Stored.wellFormed (bcryptHashWith 5 SALT_ROUNDS
          (hmacSha256 "server-pepper" "pw"))) =
      Except.error "Password cannot be empty." := by decide

/-- Claim C3 (amended): for every NON-EMPTY password p, `compare` against a
well-formed stored hash never throws and returns true iff the peppered p
matches the stored digest, and against a malformed stored hash it fails
with an invalid-input error; for the empty password `compare` throws even
on a well-formed hash. -/
theorem C3_compare_amended (pepper p : String) (hp : p ≠ "")
    (h : BcryptHash) (s : String) :
    compare pepper p (Stored.wellFormed h) =
      Except.ok (bcryptCheck (hmacSha256 pepper p) h) ∧
    (compare pepper p (Stored.wellFormed h) = Except.ok true ↔
      h.digest = (h.salt, hmacSha256 pepper p)) ∧
    compare pepper p (Stored.malformed s) =
      Except.error "Invalid stored hash." := by
  refine ⟨?_, ?_, ?_⟩
  · simp [compare, addPepper, hp]
  · simp [compare, addPepper, hp, bcryptCheck]
  · simp [compare, addPepper, hp]

/-- Witness for C3 at a concrete password and stored hashes. -/
theorem C3_compare_amended_witness :
    compare "pep" "abc"
        (Stored.wellFormed (bcryptHashWith 7 SALT_ROUNDS (hmacSha256 "pep" "abc"))) =
      Except.ok (bcryptCheck (hmacSha256 "pep" "abc")
        (bcryptHashWith 7 SALT_ROUNDS (hmacSha256 "pep" "abc"))) ∧
    compare "pep" "abc" (Stored.malformed "not-a-bcrypt-hash") =
      Except.error "Invalid stored hash." := by
  have h := C3_compare_amended "pep" "abc" (by decide)
    (bcryptHashWith 7 SALT_ROUNDS (hmacSha256 "pep" "abc")) "not-a-bcrypt-hash"
  exact ⟨h.1, h.2.2⟩

/-- Claim C4: with an empty requiredFields list the effective required
fields are exactly email and password, plus nama iff the raw input
contains that key at all (even with an empty value); in particular
`validate({}, [], defaultSettings)` reports "Email is required" and
"Password is required". -/
theorem C4_defaultRequired (raw : Obj) :
    (∀ f, f ∈ effectiveRequired raw [] ↔
      (f = "email" ∨ f = "password" ∨
        (f = "nama" ∧ (getProp raw "nama").isSome))) ∧
    (∃ out, validation [] [] defaultSettings = Except.ok out ∧
      Value.vStr "Email is required" ∈ out.messages ∧
      Value.vStr "Password is required" ∈ out.messages) := by
  constructor
  · intro f
    unfold effectiveRequired
    rw [if_pos rfl]
    by_cases h : (getProp raw "nama").isSome <;> simp [h]
  · exact ⟨{ messages := [Value.vStr "Email is required",
               Value.vStr "Password is required"],
             data := [], isValid := false },
      by decide, by decide, by decide⟩

/-- Claim C6: for every string value stored under "password" or
"confirmPassword", sanitization only removes leading and trailing
whitespace: the result is a contiguous interior slice of the input, the
removed pieces are all whitespace (maximally so: the slice's ends are not
whitespace), and no interior character is escaped or altered. -/
theorem C6_passwordSanitize (key : String)
    (hkey : key = "password" ∨ key = "confirmPassword") (v : String) :
    ∃ t pre post,
      sanitizeValue key (Value.vStr v) = Value.vStr t ∧
      v.data = pre ++ t.data ++ post ∧
      (∀ c ∈ pre, jsIsSpace c = true) ∧
      (∀ c ∈ post, jsIsSpace c = true) ∧
      (∀ c, t.data.head? = some c → jsIsSpace c = false) ∧
      (∀ c, t.data.getLast? = some c → jsIsSpace c = false) := by
  refine ⟨trimStr v, v.data.takeWhile jsIsSpace,
    ((ltrimL v.data).reverse.takeWhile jsIsSpace).reverse, ?_, ?_, ?_, ?_, ?_, ?_⟩
  · show (if key = "password" ∨ key = "confirmPassword" then Value.vStr (trimStr v)
      else Value.vStr (escapeStr (trimStr v))) = Value.vStr (trimStr v)
    rw [if_pos hkey]
  · show v.data = v.data.takeWhile jsIsSpace ++ (trimStr v).data ++ _
    rw [List.append_assoc]
    conv_lhs =>
      rw [← List.takeWhile_append_dropWhile jsIsSpace v.data]
    congr 1
    exact rtrim_decomp (ltrimL v.data)
  · intro c hc
    exact List.mem_takeWhile_imp hc
  · intro c hc
    rw [List.mem_reverse] at hc
    exact List.mem_takeWhile_imp hc
  · intro c hc
    have hc' : (trimL v.data).head? = some c := hc
    have hlt : (ltrimL v.data).head? = some c := by
      cases h : trimL v.data with
      | nil => rw [h] at hc'; cases hc'
      | cons a t =>
          rw [h] at hc'
          have hac : a = c := by simpa using hc'
          subst hac
          exact rtrimL_head? (ltrimL v.data) a t h
    exact dropWhile_head?_not jsIsSpace v.data c hlt
  · intro c hc
    have hc' : ((ltrimL v.data).reverse.dropWhile jsIsSpace).reverse.getLast? =
        some c := hc
    rw [List.getLast?_reverse] at hc'
    exact dropWhile_head?_not jsIsSpace (ltrimL v.data).reverse c hc'

/-- Witness for C6 on a concrete password value with boundary whitespace
and an interior character `validator.escape` would have altered. -/
theorem C6_passwordSanitize_witness :
    ∃ t pre post,
      sanitizeValue "password" (Value.vStr " a<b& ") = Value.vStr t ∧
      (" a<b& " : String).data = pre ++ t.data ++ post ∧
      (∀ c ∈ pre, jsIsSpace c = true) ∧
      (∀ c ∈ post, jsIsSpace c = true) ∧
      (∀ c, t.data.head? = some c → jsIsSpace c = false) ∧
      (∀ c, t.data.getLast? = some c → jsIsSpace c = false) :=
  C6_passwordSanitize "password" (Or.inl rfl) " a<b& "

/-- Claim C9: a custom validator on a present field whose result is not the
literal boolean true gets that result appended verbatim to the messages —
it need not be a string — and the outcome is invalid. -/
theorem C9_customValidator (raw : Obj) (req : List String) (s : Settings)
    (f : String) (fn : Value → Obj → Value) (v : Value) (out : Outcome)
    (hmem : (f, fn) ∈ s.customValidators)
    (hv : getProp (sanitization raw) f = some v)
    (hr : fn v (sanitization raw) ≠ Value.vBool true)
    (hout : validation raw req s = Except.ok out) :
    fn v (sanitization raw) ∈ out.messages ∧ out.isValid = false := by
  obtain ⟨m2, m3, he, hpw⟩ := validation_ok_inv raw req s out hout
  have heq := validation_ok_eq raw req s out m2 m3 he hpw hout
  have hmemc : fn v (sanitization raw) ∈ customMessages s (sanitization raw) :=
    mem_customMessages s (sanitization raw) f fn v hmem hv hr
  have hmsg : fn v (sanitization raw) ∈ out.messages := by
    rw [heq]
    show fn v (sanitization raw) ∈ _ ++ m2 ++ m3 ++ customMessages s (sanitization raw)
    simp [List.mem_append, hmemc]
  refine ⟨hmsg, ?_⟩
  have hne : out.messages ≠ [] := List.ne_nil_of_mem hmsg
  have hval : out.isValid = out.messages.isEmpty := by rw [heq]; rfl
  cases hm : out.messages with
  | nil => exact absurd hm hne
  | cons a t => rw [hval, hm]; rfl

/-- Witness for C9: a custom validator returning the non-string `false`,
which lands in the messages verbatim. -/
theorem C9_customValidator_witness :
    ∃ out, validation [("age", Value.vNum 5)] []
        { defaultSettings with
          customValidators := [("age", fun _ _ => Value.vBool false)] } =
      Except.ok out ∧
      Value.vBool false ∈ out.messages ∧ out.isValid = false := by
  have h9 := C9_customValidator [("age", Value.vNum 5)] []
    { defaultSettings with
      customValidators := [("age", fun _ _ => Value.vBool false)] }
    "age" (fun _ _ => Value.vBool false) (Value.vNum 5)
    { messages := [Value.vStr "Email is required",
        Value.vStr "Password is required", Value.vBool false],
      data := [("age", Value.vNum 5)], isValid := false }
    (List.Mem.head _) (by decide) (by decide) (by decide)
  exact ⟨_, by decide, h9.1, h9.2⟩

/-- Claim C10: a non-empty email without an `@`, under a non-empty domain
allow-list, extracts an undefined domain and accumulates BOTH the
invalid-format message and the domain-restriction message. -/
theorem C10_email_two_messages (raw : Obj) (req : List String) (s : Settings)
    (e : String) (out : Outcome)
    (he : getProp (sanitization raw) "email" = some (Value.vStr e))
    (hne : e ≠ "") (hat : '@' ∉ e.data)
    (hve : s.validateEmail = true) (hd : s.allowedDomains ≠ [])
    (hout : validation raw req s = Except.ok out) :
    Value.vStr "Invalid email format" ∈ out.messages ∧
    Value.vStr (domainMsg s.allowedDomains) ∈ out.messages := by
  have hm2 : emailMessages s (sanitization raw) =
      Except.ok [Value.vStr "Invalid email format",
        Value.vStr (domainMsg s.allowedDomains)] := by
    unfold emailMessages
    rw [he]
    simp [hve, truthy, truthyV, bne_iff_ne, hne, isEmail_no_at e hat,
      split_no_sep '@' e.data hat, hd]
  obtain ⟨m2, m3, he2, hpw⟩ := validation_ok_inv raw req s out hout
  have heq := validation_ok_eq raw req s out m2 m3 he2 hpw hout
  rw [hm2] at he2
  injection he2 with hm2eq
  rw [heq, mkOutcome]
  constructor
  · simp [List.mem_append, ← hm2eq]
  · simp [List.mem_append, ← hm2eq]

/-- Witness for C10 on a concrete address with no `@`. -/
theorem C10_email_two_messages_witness :
    ∃ out, validation [("email", Value.vStr "plainaddress")] []
        { defaultSettings with allowedDomains := ["allowed.com"] } =
      Except.ok out ∧
      Value.vStr "Invalid email format" ∈ out.messages ∧
      Value.vStr (domainMsg ["allowed.com"]) ∈ out.messages := by
  refine ⟨{ messages := [Value.vStr "Password is required",
              Value.vStr "Invalid email format",
              Value.vStr "Email must use one of the following domains: allowed.com"],
            data := [("email", Value.vStr "plainaddress")], isValid := false },
    by decide, ?_⟩
  exact C10_email_two_messages [("email", Value.vStr "plainaddress")] []
    { defaultSettings with allowedDomains := ["allowed.com"] } "plainaddress"
    { messages := [Value.vStr "Password is required",
        Value.vStr "Invalid email format",
        Value.vStr "Email must use one of the following domains: allowed.com"],
      data := [("email", Value.vStr "plainaddress")], isValid := false }
    (by decide) (by decide) (by decide) (by decide) (by decide) (by decide)

/-- Claim C5: with password validation enabled (and no custom validators,
which could push arbitrary further messages), a present non-empty sanitized
password makes validate append the composite password-policy message
exactly once iff the password violates some rule of the fixed policy
(length in [8,100], uppercase, lowercase, digit, symbol, no whitespace,
not blacklisted), and zero times iff it satisfies all of them; the second
conjunct identifies the schema's violation list with that fixed policy. -/
theorem C5_passwordPolicy (raw : Obj) (req : List String) (s : Settings)
    (p : String) (out : Outcome)
    (hvp : s.validatePassword = true) (hcv : s.customValidators = [])
    (hp : getProp (sanitization raw) "password" = some (Value.vStr p))
    (hne : p ≠ "") (hout : validation raw req s = Except.ok out) :
    out.messages.count (Value.vStr pwPolicyMsg) =
      (if passwordStrong p = true then 0 else 1) ∧
    (schemaViolations p = [] ↔ passwordStrong p = true) := by
  refine ⟨?_, schemaViolations_nil_iff p⟩
  obtain ⟨m2, m3, he, hpw⟩ := validation_ok_inv raw req s out hout
  have heq := validation_ok_eq raw req s out m2 m3 he hpw hout
  have hcust : customMessages s (sanitization raw) = [] := by
    unfold customMessages
    rw [hcv]
    rfl
  rw [heq]
  show (requiredMessages (sanitization raw) (effectiveRequired raw req) ++
    m2 ++ m3 ++ customMessages s (sanitization raw)).count (Value.vStr pwPolicyMsg) = _
  rw [hcust, List.append_nil, List.count_append, List.count_append]
  rw [List.count_eq_zero.mpr (pwPolicy_notMem_required (sanitization raw)
    (effectiveRequired raw req))]
  have hm2z : m2.count (Value.vStr pwPolicyMsg) = 0 := by
    rw [List.count_eq_zero]
    intro hmem
    rcases emailMessages_elems s (sanitization raw) m2 he _ hmem with h1 | h1
    · exact absurd h1 (by decide)
    · exact pwPolicy_ne_domainMsg s.allowedDomains h1
  rw [hm2z, passwordMessages_count s (sanitization raw) p m3 hvp hp hne hpw]
  by_cases hsch : schemaViolations p = []
  · rw [if_pos hsch, if_pos ((schemaViolations_nil_iff p).mp hsch)]
  · rw [if_neg hsch,
      if_neg (fun hps => hsch ((schemaViolations_nil_iff p).mpr hps))]

/-- Witness for C5: "short1!" (7 characters) draws the composite message
once, "LongEnough1!" draws it zero times. -/
theorem C5_passwordPolicy_witness :
    (∃ out, validation [("password", Value.vStr "short1!")] [] defaultSettings =
        Except.ok out ∧
      out.messages.count (Value.vStr pwPolicyMsg) = 1) ∧
    (∃ out, validation [("password", Value.vStr "LongEnough1!")] [] defaultSettings =
        Except.ok out ∧
      out.messages.count (Value.vStr pwPolicyMsg) = 0) := by
  constructor
  · refine ⟨{ messages := [Value.vStr "Email is required", Value.vStr pwPolicyMsg],
              data := [("password", Value.vStr "short1!")], isValid := false },
      by decide, ?_⟩
    have h := (C5_passwordPolicy [("password", Value.vStr "short1!")] []
      defaultSettings "short1!"
      { messages := [Value.vStr "Email is required", Value.vStr pwPolicyMsg],
        data := [("password", Value.vStr "short1!")], isValid := false }
      rfl rfl (by decide) (by decide) (by decide)).1
    exact h.trans (by decide)
  · refine ⟨{ messages := [Value.vStr "Email is required"],
              data := [("password", Value.vStr "LongEnough1!")], isValid := false },
      by decide, ?_⟩
    have h := (C5_passwordPolicy [("password", Value.vStr "LongEnough1!")] []
      defaultSettings "LongEnough1!"
      { messages := [Value.vStr "Email is required"],
        data := [("password", Value.vStr "LongEnough1!")], isValid := false }
      rfl rfl (by decide) (by decide) (by decide)).1
    exact h.trans (by decide)

/-- Claim C2 as stated is false at one input: "&amp;" is the sanitizer's
output for the non-password field value "&", yet sanitizing it again
yields "&amp;amp;" — escape is not idempotent on its own output. -/
theorem C2_counterexample :
    sanitization [("nama", Value.vStr "&")] = [("nama", Value.vStr "&amp;")] ∧
    sanitization [("nama", Value.vStr "&amp;")] =
      [("nama", Value.vStr "&amp;amp;")] ∧
    ("&amp;amp;" : String) ≠ "&amp;" :=
  ⟨by decide, by decide, by decide⟩

/-- Claim C2 (amended): sanitization of a non-password string field is
idempotent exactly on outputs free of escapable characters: whenever the
sanitized output contains no ampersand (every escaped character leaves an
ampersand behind), sanitizing again returns it unchanged; outputs with an
ampersand are altered again, as the counterexample shows. -/
theorem C2_sanitize_idempotent (key r : String)
    (hkey : ¬(key = "password" ∨ key = "confirmPassword"))
    (hamp : '&' ∉ (escapeStr (trimStr r)).data) :
    sanitizeValue key (sanitizeValue key (Value.vStr r)) =
      sanitizeValue key (Value.vStr r) := by
  have hval : sanitizeValue key (Value.vStr r) =
      Value.vStr (escapeStr (trimStr r)) := by
    show (if key = "password" ∨ key = "confirmPassword"
      then Value.vStr (trimStr r) else Value.vStr (escapeStr (trimStr r))) = _
    rw [if_neg hkey]
  have hfree : ∀ c ∈ trimL r.data, isEscapable c = false := by
    intro c hc
    cases h : isEscapable c
    · rfl
    · exact absurd (amp_mem_escapeL (trimL r.data) c hc h) hamp
  have heq : escapeL (trimL r.data) = trimL r.data := escapeL_eq_self _ hfree
  rw [hval]
  have hval2 : sanitizeValue key (Value.vStr (escapeStr (trimStr r))) =
      Value.vStr (escapeStr (trimStr (escapeStr (trimStr r)))) := by
    show (if key = "password" ∨ key = "confirmPassword"
      then Value.vStr (trimStr (escapeStr (trimStr r)))
      else Value.vStr (escapeStr (trimStr (escapeStr (trimStr r))))) = _
    rw [if_neg hkey]
  rw [hval2]
  have hfix : escapeStr (trimStr (escapeStr (trimStr r))) =
      escapeStr (trimStr r) := by
    show String.mk (escapeL (trimL (escapeStr (trimStr r)).data)) =
      String.mk (escapeL (trimL r.data))
    rw [show (escapeStr (trimStr r)).data = trimL r.data from heq, trimL_trimL]
  rw [hfix]

/-- Witness for the amended C2 on an ampersand-free sanitized output. -/
theorem C2_sanitize_idempotent_witness :
    sanitizeValue "nama" (sanitizeValue "nama" (Value.vStr " hello ")) =
      sanitizeValue "nama" (Value.vStr " hello ") :=
  C2_sanitize_idempotent "nama" " hello " (by decide) (by decide)

end Pino
